import Mathlib

/-!
Shallow embedding of the Tauri backend of the Radial-Menu-Builder-for-Plasticity
repository (`src/src-tauri/src/main.rs`) and verification of the frozen claims
about it.

File-system effects are modelled by explicit state records; file contents are
strings (or, for menu documents, parsed JSON values, taking the serde_json
guarantee that `to_string_pretty` followed by `from_str` is the identity on
JSON values as the library boundary).  Machine-level failure modes that the
claims do not discriminate (e.g. the precise text of an OS error) are folded
into fixed message strings.
-/

/-! ### Rust string trimming (`str::trim`)

`str::trim` removes leading and trailing characters with the Unicode
`White_Space` property. -/

/-- The Unicode `White_Space` code points, as used by Rust's `char::is_whitespace`. -/
def rustIsWhitespace (c : Char) : Bool :=
  c.toNat ∈ [9, 10, 11, 12, 13, 32, 0x85, 0xA0, 0x1680,
    0x2000, 0x2001, 0x2002, 0x2003, 0x2004, 0x2005, 0x2006, 0x2007, 0x2008,
    0x2009, 0x200A, 0x2028, 0x2029, 0x202F, 0x205F, 0x3000]

/-- Rust `str::trim`: drop leading and trailing whitespace. -/
def rustTrim (s : String) : String :=
  String.mk (((s.data.dropWhile rustIsWhitespace).reverse.dropWhile rustIsWhitespace).reverse)

/-! ### OS strings and UTF-8

Directory entry names are OS byte strings (`OsStr`); `to_str` succeeds exactly
when the bytes are valid UTF-8.  We model names as `List Nat` (byte values) and
implement a faithful UTF-8 decoder (rejecting overlong forms, surrogates and
out-of-range code points, as Rust's validator does). -/

/-- A UTF-8 continuation byte: `0x80 ≤ b < 0xC0`. -/
def utf8IsCont (b : Nat) : Bool :=
  decide (128 ≤ b ∧ b < 192)

/-- Decode a byte list as UTF-8, or `none` when the bytes are not valid UTF-8.
Mirrors Rust's `str::from_utf8` validity rules. -/
def utf8Decode : List Nat → Option (List Char)
  | [] => some []
  | b :: bs =>
    if b < 128 then
      (utf8Decode bs).map (fun cs => Char.ofNat b :: cs)
    else if b < 194 then
      -- continuation byte or overlong lead (0xC0/0xC1) in lead position
      none
    else if b < 224 then
      match bs with
      | b1 :: bs1 =>
        if utf8IsCont b1 = true then
          (utf8Decode bs1).map (fun cs =>
            Char.ofNat ((b - 192) * 64 + (b1 - 128)) :: cs)
        else none
      | [] => none
    else if b < 240 then
      match bs with
      | b1 :: b2 :: bs2 =>
        if utf8IsCont b1 = true ∧ utf8IsCont b2 = true ∧
            (b = 224 → 160 ≤ b1) ∧ (b = 237 → b1 < 160) then
          (utf8Decode bs2).map (fun cs =>
            Char.ofNat ((b - 224) * 4096 + (b1 - 128) * 64 + (b2 - 128)) :: cs)
        else none
      | _ => none
    else if b < 245 then
      match bs with
      | b1 :: b2 :: b3 :: bs3 =>
        if utf8IsCont b1 = true ∧ utf8IsCont b2 = true ∧ utf8IsCont b3 = true ∧
            (b = 240 → 144 ≤ b1) ∧ (b = 244 → b1 < 144) then
          (utf8Decode bs3).map (fun cs =>
            Char.ofNat ((b - 240) * 262144 + (b1 - 128) * 4096 +
              (b2 - 128) * 64 + (b3 - 128)) :: cs)
        else none
      | _ => none
    else none

/-- `OsStr::to_str` on a byte-string name. -/
def utf8Str (bs : List Nat) : Option String :=
  (utf8Decode bs).map String.mk

/-- Byte list of an ASCII string (used to build concrete entry names). -/
def asciiBytes (s : String) : List Nat :=
  s.data.map Char.toNat

/-! ### `Path::extension`

On a file name (no separators), `Path::extension` is the byte slice after the
final `.`, except that a name with no `.`, or whose only `.` is its first
byte, has no extension. -/

/-- Rust `Path::extension` at byte level on an entry's file name. -/
def extensionBytes (name : List Nat) : Option (List Nat) :=
  let revName := name.reverse
  let revAfter := revName.takeWhile (fun b => decide (b ≠ 46))
  let revRest := revName.dropWhile (fun b => decide (b ≠ 46))
  match revRest with
  | [] => none
  | _ :: stemRev => if stemRev.isEmpty then none else some revAfter.reverse

/-! ### Directory listing (`list_json_files`) -/

/-- One entry yielded by `fs::read_dir`: its file name (OS bytes) and whether
it is a directory.  The source never consults the kind; the flag exists so
claims about subdirectories can be stated. -/
structure DirEntry where
  name : List Nat
  isDir : Bool

/-- The observable state `list_json_files` touches: whether the directory path
exists, and the outcome of `fs::read_dir` — either a failure to open, or a
sequence of per-entry results (each entry read can itself fail). -/
structure DirState where
  present : Bool
  readDir : Except String (List (Except String DirEntry))

/-- The name pushed for one readable entry, if any: the source keeps an entry
exactly when `path.extension()` is `Some` and equals `json` (byte comparison,
case-sensitive), and `file_name().to_str()` succeeds; the entry kind is never
inspected. -/
def entryJsonName (e : DirEntry) : Option String :=
  match extensionBytes e.name with
  | some ext => if ext = [106, 115, 111, 110] then utf8Str e.name else none
  | none => none

/-- `list_json_files` from `main.rs` (lines 102-134): error when the path does
not exist; error when `read_dir` itself fails; otherwise collect the names of
the `json`-extension entries — per-entry failures are skipped by
`if let Ok(entry)` — and sort them.  `Vec::sort` on `String` is lexicographic
byte order, which on valid UTF-8 equals the code-point order of Lean's
`String` order; since equal strings are identical, any sort yields the same
list, so insertion sort represents it exactly. -/
def list_json_files (st : DirState) : Except String (List String) :=
  if !st.present then .error "Directory does not exist"
  else
    match st.readDir with
    | .error e => .error ("Failed to read directory: " ++ e)
    | .ok entries =>
      .ok (List.insertionSort (· ≤ ·) (entries.filterMap (fun ent =>
        match ent with
        | .ok e => entryJsonName e
        | .error _ => none)))

/-! ### A JSON parser for flat string-to-string catalogs

`serde_json::from_str::<HashMap<String, String>>` accepts exactly a JSON
object whose values are all strings (with nothing but whitespace after it);
duplicate keys overwrite (`HashMap::insert`).  Character codes are written
numerically (34 `"`, 92 backslash, 123/125 braces, 58 colon, 44 comma). -/

/-- JSON insignificant whitespace: space, tab, line feed, carriage return. -/
def skipJWs (cs : List Char) : List Char :=
  cs.dropWhile (fun c => decide (c.toNat = 32 ∨ c.toNat = 9 ∨ c.toNat = 10 ∨ c.toNat = 13))

/-- Value of a hex digit character. -/
def hexVal (c : Char) : Option Nat :=
  if 48 ≤ c.toNat ∧ c.toNat ≤ 57 then some (c.toNat - 48)
  else if 97 ≤ c.toNat ∧ c.toNat ≤ 102 then some (c.toNat - 87)
  else if 65 ≤ c.toNat ∧ c.toNat ≤ 70 then some (c.toNat - 55)
  else none

/-- Parse the body of a JSON string literal (the opening quote already
consumed): returns the decoded characters and the input after the closing
quote.  Handles the simple escapes and `\uXXXX`, including surrogate pairs.
The fuel argument only bounds recursion; called with more fuel than
characters it is never exhausted. -/
def parseJStrAux : Nat → List Char → Option (List Char × List Char)
  | 0, _ => none
  | _ + 1, [] => none
  | fuel + 1, c :: rest =>
    if c.toNat = 34 then some ([], rest)
    else if c.toNat = 92 then
      match rest with
      | [] => none
      | e :: rest1 =>
        if e.toNat = 34 ∨ e.toNat = 92 ∨ e.toNat = 47 then
          (parseJStrAux fuel rest1).map (fun r => (e :: r.1, r.2))
        else if e.toNat = 98 then
          (parseJStrAux fuel rest1).map (fun r => (Char.ofNat 8 :: r.1, r.2))
        else if e.toNat = 102 then
          (parseJStrAux fuel rest1).map (fun r => (Char.ofNat 12 :: r.1, r.2))
        else if e.toNat = 110 then
          (parseJStrAux fuel rest1).map (fun r => (Char.ofNat 10 :: r.1, r.2))
        else if e.toNat = 114 then
          (parseJStrAux fuel rest1).map (fun r => (Char.ofNat 13 :: r.1, r.2))
        else if e.toNat = 116 then
          (parseJStrAux fuel rest1).map (fun r => (Char.ofNat 9 :: r.1, r.2))
        else if e.toNat = 117 then
          match rest1 with
          | h1 :: h2 :: h3 :: h4 :: rest2 =>
            match hexVal h1, hexVal h2, hexVal h3, hexVal h4 with
            | some v1, some v2, some v3, some v4 =>
              let cp := v1 * 4096 + v2 * 256 + v3 * 16 + v4
              if 0xD800 ≤ cp ∧ cp ≤ 0xDBFF then
                -- high surrogate: a low surrogate escape must follow
                match rest2 with
                | q1 :: q2 :: k1 :: k2 :: k3 :: k4 :: rest3 =>
                  if q1.toNat = 92 ∧ q2.toNat = 117 then
                    match hexVal k1, hexVal k2, hexVal k3, hexVal k4 with
                    | some w1, some w2, some w3, some w4 =>
                      let lo := w1 * 4096 + w2 * 256 + w3 * 16 + w4
                      if 0xDC00 ≤ lo ∧ lo ≤ 0xDFFF then
                        (parseJStrAux fuel rest3).map (fun r =>
                          (Char.ofNat (0x10000 + (cp - 0xD800) * 1024 + (lo - 0xDC00)) :: r.1,
                            r.2))
                      else none
                    | _, _, _, _ => none
                  else none
                | _ => none
              else if 0xDC00 ≤ cp ∧ cp ≤ 0xDFFF then none
              else (parseJStrAux fuel rest2).map (fun r => (Char.ofNat cp :: r.1, r.2))
            | _, _, _, _ => none
          | _ => none
        else none
    else if c.toNat < 32 then none
    else (parseJStrAux fuel rest).map (fun r => (c :: r.1, r.2))

/-- Insert a key with `HashMap` semantics: a duplicate key overwrites. -/
def insertLastWins (k v : String) (acc : List (String × String)) : List (String × String) :=
  acc.filter (fun kv => decide (kv.1 ≠ k)) ++ [(k, v)]

/-- Parse the members of a JSON object of string values, positioned at the
opening quote of the next key; returns the accumulated map and the input
after the closing brace. -/
def parseMembers : Nat → List (String × String) → List Char →
    Option (List (String × String) × List Char)
  | 0, _, _ => none
  | fuel + 1, acc, cs =>
    match cs with
    | c :: rest =>
      if c.toNat = 34 then
        match parseJStrAux (rest.length + 1) rest with
        | some (key, rest1) =>
          match skipJWs rest1 with
          | d :: rest2 =>
            if d.toNat = 58 then
              match skipJWs rest2 with
              | q :: rest3 =>
                if q.toNat = 34 then
                  match parseJStrAux (rest3.length + 1) rest3 with
                  | some (val, rest4) =>
                    let acc1 := insertLastWins (String.mk key) (String.mk val) acc
                    match skipJWs rest4 with
                    | s :: rest5 =>
                      if s.toNat = 44 then parseMembers fuel acc1 (skipJWs rest5)
                      else if s.toNat = 125 then some (acc1, rest5)
                      else none
                    | [] => none
                  | none => none
                else none
              | [] => none
            else none
          | [] => none
        | none => none
      else none
    | [] => none

/-- `serde_json::from_str::<HashMap<String, String>>`: a JSON object with
string values, whitespace allowed, nothing but whitespace after it;
`none` models a parse error. -/
def parseStringMap (s : String) : Option (List (String × String)) :=
  match skipJWs s.data with
  | c :: rest =>
    if c.toNat = 123 then
      match skipJWs rest with
      | d :: tail =>
        if d.toNat = 125 then
          if (skipJWs tail).isEmpty then some [] else none
        else
          match parseMembers (rest.length + 1) [] (skipJWs rest) with
          | some (m, rem) => if (skipJWs rem).isEmpty then some m else none
          | none => none
      | [] => none
    else none
  | [] => none

/-! ### Command catalog loading (`load_commands`, `load_commands_from_file`) -/

/-- The file-system state the catalog loaders touch: the readable files
(path, content) keyed by normalized path, plus — for stating the claim about
resolution order — where the user's application-data directory and the
packaged-resources directory would be.  The underlying OS error text of a
failed read is not modelled (the claims do not discriminate it). -/
structure CmdWorld where
  files : List (String × String)
  appDataDir : String
  resourceDir : String

/-- Relative-path aliasing: `./p` names the same file as `p` (both are
resolved against the current working directory).  Byte codes: 46 `.`, 47 `/`. -/
def normalizePath (p : String) : String :=
  match p.data with
  | c1 :: c2 :: rest => if c1.toNat = 46 ∧ c2.toNat = 47 then String.mk rest else p
  | _ => p

/-- `fs::read_to_string`: `some content` when the file is readable. -/
def readToString (w : CmdWorld) (p : String) : Option String :=
  w.files.lookup (normalizePath p)

/-- The candidate locations hard-coded in `load_commands` (`main.rs` lines
29-34): four paths relative to the current working directory. -/
def possiblePaths : List String :=
  ["dist/commands.json", "./dist/commands.json", "../dist/commands.json", "commands.json"]

/-- The hard-coded fallback catalog built in `load_commands` (lines 52-55). -/
def fallbackCommands : List (String × String) :=
  [("command:align", "align"), ("command:boolean", "boolean")]

/-- The candidate loop of `load_commands` (lines 36-47): first path that both
reads and parses wins; a read failure or a parse failure falls through to the
next path. -/
def tryPaths (w : CmdWorld) : List String → Option (List (String × String))
  | [] => none
  | p :: ps =>
    match readToString w p with
    | some content =>
      match parseStringMap content with
      | some commands => some commands
      | none => tryPaths w ps
    | none => tryPaths w ps

/-- `load_commands` from `main.rs` (lines 27-59): try the four candidate
paths, then return the hard-coded fallback; the function always returns `Ok`. -/
def load_commands (w : CmdWorld) : Except String (List (String × String)) :=
  match tryPaths w possiblePaths with
  | some commands => .ok commands
  | none => .ok fallbackCommands

/-- `load_commands_from_file` from `main.rs` (lines 62-75): read error and
parse error are the only failure modes (underlying OS error text stands in as
a fixed suffix). -/
def load_commands_from_file (w : CmdWorld) (path : String) :
    Except String (List (String × String)) :=
  match readToString w path with
  | some content =>
    match parseStringMap content with
    | some commands => .ok commands
    | none => .error "Failed to parse commands file: invalid JSON"
  | none => .error "Failed to read file: os error"

/-- The first candidate of `possiblePaths`, in order, that both reads and
parses — a declarative description of the loop, used to state what
`load_commands` resolves to. -/
def firstParsedCandidate (w : CmdWorld) : Option (List (String × String)) :=
  (possiblePaths.filterMap (fun p => (readToString w p).bind parseStringMap)).head?

/-- The resolution order as the spec words it (§4.1), for comparison with the
code: (a) `commands.json` in the user's application-data directory, (b) next
to the packaged resources, (c) in the current working directory, (d) the
compiled-in catalog. -/
def specCandidatePaths (w : CmdWorld) : List String :=
  [w.appDataDir ++ "/commands.json", w.resourceDir ++ "/commands.json", "commands.json"]

/-- The catalog loader as the spec describes it: first success over
`specCandidatePaths`, then the compiled-in fallback. -/
def specLoadCommands (w : CmdWorld) : Except String (List (String × String)) :=
  match tryPaths w (specCandidatePaths w) with
  | some commands => .ok commands
  | none => .ok fallbackCommands

/-! ### Radial menu documents (`save_radial_menu`, `load_radial_menu`)

Menu files are read with `fs::read_to_string` + `serde_json::from_str` and
written with `serde_json::to_string_pretty` + `fs::write`.  We embed file
contents at the JSON-value level: `to_string_pretty` followed by `from_str`
is the identity on JSON values (a serde_json library guarantee taken as the
boundary), so a file either holds a JSON value or text that is not JSON. -/

/-- A JSON value (numbers as integers suffice here: the menu codecs reject
any number anyway). -/
inductive Json where
  | null : Json
  | bool (b : Bool) : Json
  | num (n : Int) : Json
  | str (s : String) : Json
  | arr (xs : List Json) : Json
  | obj (fields : List (String × Json)) : Json

/-- `MenuItem` from `main.rs` (lines 13-17). -/
structure MenuItem where
  command : String
  icon : String
  label : String
deriving DecidableEq

/-- `RadialMenu` from `main.rs` (lines 19-24). -/
structure RadialMenu where
  name : String
  command : String
  items : List MenuItem
deriving DecidableEq

/-- Derived `Serialize` for `MenuItem`: an object with the fields in
declaration order. -/
def MenuItem.toJson (it : MenuItem) : Json :=
  .obj [("command", .str it.command), ("icon", .str it.icon), ("label", .str it.label)]

/-- Derived `Serialize` for `RadialMenu`. -/
def RadialMenu.toJson (m : RadialMenu) : Json :=
  .obj [("name", .str m.name), ("command", .str m.command),
    ("items", .arr (m.items.map MenuItem.toJson))]

/-- Fold one object member into the partial `MenuItem` field state:
serde's derived `Deserialize` errors on a duplicate field or a non-string
value, and ignores unknown fields. -/
def menuItemStep (st : Option String × Option String × Option String)
    (kv : String × Json) : Except String (Option String × Option String × Option String) :=
  match st with
  | (cmd, icon, label) =>
    if kv.1 = "command" then
      match cmd, kv.2 with
      | none, .str s => .ok (some s, icon, label)
      | some _, _ => .error "duplicate field command"
      | none, _ => .error "invalid type for field command"
    else if kv.1 = "icon" then
      match icon, kv.2 with
      | none, .str s => .ok (cmd, some s, label)
      | some _, _ => .error "duplicate field icon"
      | none, _ => .error "invalid type for field icon"
    else if kv.1 = "label" then
      match label, kv.2 with
      | none, .str s => .ok (cmd, icon, some s)
      | some _, _ => .error "duplicate field label"
      | none, _ => .error "invalid type for field label"
    else .ok (cmd, icon, label)

/-- Visit the object members in order, threading the field state. -/
def menuItemFields : List (String × Json) → (Option String × Option String × Option String) →
    Except String (Option String × Option String × Option String)
  | [], st => .ok st
  | kv :: rest, st =>
    match menuItemStep st kv with
    | .ok st1 => menuItemFields rest st1
    | .error e => .error e

/-- Derived `Deserialize` for `MenuItem`. -/
def MenuItem.fromJson : Json → Except String MenuItem
  | .obj fields =>
    match menuItemFields fields (none, none, none) with
    | .ok (some cmd, some icon, some label) => .ok ⟨cmd, icon, label⟩
    | .ok (none, _, _) => .error "missing field command"
    | .ok (_, none, _) => .error "missing field icon"
    | .ok (_, _, none) => .error "missing field label"
    | .error e => .error e
  | _ => .error "invalid type: expected struct MenuItem"

/-- serde's `Vec<MenuItem>` deserialization: element by element, first error
wins. -/
def menuItemsFromJson : List Json → Except String (List MenuItem)
  | [] => .ok []
  | x :: xs =>
    match MenuItem.fromJson x with
    | .ok it =>
      match menuItemsFromJson xs with
      | .ok rest => .ok (it :: rest)
      | .error e => .error e
    | .error e => .error e

/-- Fold one object member into the partial `RadialMenu` field state. -/
def radialMenuStep (st : Option String × Option String × Option (List MenuItem))
    (kv : String × Json) :
    Except String (Option String × Option String × Option (List MenuItem)) :=
  match st with
  | (name, cmd, items) =>
    if kv.1 = "name" then
      match name, kv.2 with
      | none, .str s => .ok (some s, cmd, items)
      | some _, _ => .error "duplicate field name"
      | none, _ => .error "invalid type for field name"
    else if kv.1 = "command" then
      match cmd, kv.2 with
      | none, .str s => .ok (name, some s, items)
      | some _, _ => .error "duplicate field command"
      | none, _ => .error "invalid type for field command"
    else if kv.1 = "items" then
      match items, kv.2 with
      | none, .arr xs =>
        match menuItemsFromJson xs with
        | .ok parsed => .ok (name, cmd, some parsed)
        | .error e => .error e
      | some _, _ => .error "duplicate field items"
      | none, _ => .error "invalid type for field items"
    else .ok (name, cmd, items)

/-- Visit the object members in order, threading the field state. -/
def radialMenuFields : List (String × Json) →
    (Option String × Option String × Option (List MenuItem)) →
    Except String (Option String × Option String × Option (List MenuItem))
  | [], st => .ok st
  | kv :: rest, st =>
    match radialMenuStep st kv with
    | .ok st1 => radialMenuFields rest st1
    | .error e => .error e

/-- Derived `Deserialize` for `RadialMenu`. -/
def RadialMenu.fromJson : Json → Except String RadialMenu
  | .obj fields =>
    match radialMenuFields fields (none, none, none) with
    | .ok (some name, some cmd, some items) => .ok ⟨name, cmd, items⟩
    | .ok (none, _, _) => .error "missing field name"
    | .ok (_, none, _) => .error "missing field command"
    | .ok (_, _, none) => .error "missing field items"
    | .error e => .error e
  | _ => .error "invalid type: expected struct RadialMenu"

/-- Content of one file in the menu file system: a JSON value, or text that
is not valid JSON. -/
inductive FileData where
  | jsonData (j : Json) : FileData
  | textData (s : String) : FileData

/-- The file-system state the menu I/O touches: existing directories, files,
and paths on which the OS denies writing.  `fs::write` does not create
missing directories, so a write fails when the parent directory is absent;
other OS-level write failures are represented by `writeDenied`. -/
structure MenuFs where
  dirs : List String
  files : List (String × FileData)
  writeDenied : List String

/-- Split a character list at every `/` (code 47). -/
def splitSlash : List Char → List (List Char)
  | [] => [[]]
  | c :: rest =>
    let r := splitSlash rest
    if c.toNat = 47 then [] :: r
    else
      match r with
      | [] => [[c]]
      | g :: gs => (c :: g) :: gs

/-- `Path::parent` of a path string: the part before the final separator,
`none` for a bare file name (which lives in the current working directory). -/
def parentDir (path : String) : Option String :=
  let parts := splitSlash path.data
  if parts.length ≤ 1 then none
  else some (String.mk (List.intercalate [Char.ofNat 47] (parts.dropLast)))

/-- `fs::write`: fails when the parent directory does not exist or the OS
denies the write; otherwise replaces the file's content. -/
def fsWrite (st : MenuFs) (path : String) (data : FileData) : Except String MenuFs :=
  match parentDir path with
  | some d =>
    if d ∈ st.dirs then
      if path ∈ st.writeDenied then .error "Failed to write file: permission denied"
      else .ok { st with files := (path, data) :: st.files.filter (fun kv => decide (kv.1 ≠ path)) }
    else .error "Failed to write file: No such file or directory"
  | none =>
    if path ∈ st.writeDenied then .error "Failed to write file: permission denied"
    else .ok { st with files := (path, data) :: st.files.filter (fun kv => decide (kv.1 ≠ path)) }

/-- `save_radial_menu` from `main.rs` (lines 78-87): serialize (pretty
printing a `RadialMenu` never fails, so the `SerializationError` arm is
unreachable) and write — with no `create_dir_all` beforehand. -/
def save_radial_menu (st : MenuFs) (menu : RadialMenu) (path : String) :
    Except String MenuFs :=
  fsWrite st path (.jsonData menu.toJson)

/-- `load_radial_menu` from `main.rs` (lines 90-99): read, parse JSON, decode
the document. -/
def load_radial_menu (st : MenuFs) (path : String) : Except String RadialMenu :=
  match st.files.lookup path with
  | none => .error "Failed to read file: os error"
  | some (.textData _) => .error "Failed to parse menu: invalid JSON"
  | some (.jsonData j) =>
    match RadialMenu.fromJson j with
    | .ok menu => .ok menu
    | .error e => .error ("Failed to parse menu: " ++ e)

/-! ### Preference store (`save_radials_directory`, `get_saved_radials_directory`) -/

/-- The state the preference store touches: the app-config-directory
resolution (which can fail), whether that directory can be created and the
marker file written, the text files present, files whose read fails although
they exist, and the set of paths that exist on the file system (for the
`Path::new(p).exists()` check on the stored value). -/
structure PrefWorld where
  configDir : Except String String
  canCreateConfigDir : Bool
  markerWriteOk : Bool
  files : List (String × String)
  unreadable : List String
  existingPaths : List String

/-- The marker file path: `app_config_dir` joined with
`radials_directory.txt`. -/
def markerFile (cfg : String) : String :=
  cfg ++ "/radials_directory.txt"

/-- `save_radials_directory` from `main.rs` (lines 137-151): resolve the
config directory, `create_dir_all` it, write the raw (untrimmed) string to
the marker file. -/
def save_radials_directory (w : PrefWorld) (path : String) : Except String PrefWorld :=
  match w.configDir with
  | .error e => .error ("Failed to get app config directory: " ++ e)
  | .ok cfg =>
    if !w.canCreateConfigDir then .error "Failed to create config directory: os error"
    else if !w.markerWriteOk then .error "Failed to save radials directory: os error"
    else
      .ok { w with files :=
        (markerFile cfg, path) :: w.files.filter (fun kv => decide (kv.1 ≠ markerFile cfg)) }

/-- `get_saved_radials_directory` from `main.rs` (lines 153-178): if the
marker file exists, read it, trim, and return the trimmed string only when
that path still exists — otherwise `None`; a missing marker file is `None`,
not an error; a failing read of an existing marker file is an error. -/
def get_saved_radials_directory (w : PrefWorld) : Except String (Option String) :=
  match w.configDir with
  | .error e => .error ("Failed to get app config directory: " ++ e)
  | .ok cfg =>
    match w.files.lookup (markerFile cfg) with
    | some content =>
      if markerFile cfg ∈ w.unreadable then
        .error "Failed to read radials directory: os error"
      else
        let path := rustTrim content
        if path ∈ w.existingPaths then .ok (some path) else .ok none
    | none => .ok none

/-- All four candidate locations fail to read-and-parse. -/
def noCandidateUsable (w : CmdWorld) : Bool :=
  possiblePaths.all (fun p => ((readToString w p).bind parseStringMap).isNone)

-- concrete states for witnesses and counterexamples

def menuW : RadialMenu :=
  ⟨"ADD menu", "your-name:add-menu",
    [⟨"command:line", "line", "Line"⟩, ⟨"command:curve", "curve", "Curve"⟩]⟩

def stMenu0 : MenuFs := ⟨["menus"], [], []⟩

def stMenu1 : MenuFs := ⟨["menus"], [("menus/add.radial.json", .jsonData menuW.toJson)], []⟩

def stNoDir : MenuFs := ⟨[], [], []⟩

def wPref : PrefWorld := ⟨.ok "/cfg", true, true, [], [], ["/data"]⟩

def wPrefNope : PrefWorld :=
  ⟨.ok "/cfg", true, true, [("/cfg/radials_directory.txt", "/nope")], [], ["/data"]⟩

def wPrefData : PrefWorld :=
  ⟨.ok "/cfg", true, true, [("/cfg/radials_directory.txt", " /data ")], [], ["/data"]⟩

def wPrefGone : PrefWorld :=
  ⟨.ok "/cfg", true, true, [("/cfg/radials_directory.txt", "/gone")], [], []⟩

def aEntry : DirEntry := ⟨asciiBytes "a.json", false⟩

def badEntry : DirEntry := ⟨[255, 46, 106, 115, 111, 110], false⟩

def entriesC5 : List (Except String DirEntry) :=
  [.ok aEntry, .ok ⟨asciiBytes "b.txt", false⟩,
    .ok ⟨asciiBytes "c.JSON", false⟩, .ok ⟨asciiBytes "sub", true⟩]

def stC5 : DirState := ⟨true, .ok entriesC5⟩

def stC5sub : DirState := ⟨true, .ok [.ok ⟨asciiBytes "sub.json", true⟩]⟩

def stC4 : DirState := ⟨true, .ok [.ok aEntry, .error "permission denied"]⟩

def wCmd6 : CmdWorld := ⟨[("cfg.json", "not json")], "/appdata", "/res"⟩

def wCmdEmpty : CmdWorld := ⟨[], "/appdata", "/res"⟩

def wCmd8 : CmdWorld :=
  ⟨[("/appdata/commands.json", "\x7b\"k\":\"v1\"\x7d"),
    ("dist/commands.json", "\x7b\"k\":\"v2\"\x7d")], "/appdata", "/res"⟩

-- helper lemmas

theorem menuItem_roundTrip (it : MenuItem) : MenuItem.fromJson it.toJson = .ok it := rfl

theorem menuItems_roundTrip (items : List MenuItem) :
    menuItemsFromJson (items.map MenuItem.toJson) = Except.ok items := by
  induction items with
  | nil => rfl
  | cons it rest ih => simp [menuItemsFromJson, menuItem_roundTrip, ih]

theorem radialMenuStep_name (c : Option String) (i : Option (List MenuItem)) (s : String) :
    radialMenuStep (none, c, i) ("name", Json.str s) = .ok (some s, c, i) := rfl

theorem radialMenuStep_command (n : Option String) (i : Option (List MenuItem)) (s : String) :
    radialMenuStep (n, none, i) ("command", Json.str s) = .ok (n, some s, i) := rfl

theorem radialMenuStep_items (n c : Option String) (xs : List Json) :
    radialMenuStep (n, c, none) ("items", Json.arr xs) =
      (match menuItemsFromJson xs with
        | .ok parsed => .ok (n, c, some parsed)
        | .error e => .error e) := rfl

theorem radialMenu_roundTrip (m : RadialMenu) : RadialMenu.fromJson m.toJson = .ok m := by
  have h : menuItemsFromJson (m.items.map MenuItem.toJson) = Except.ok m.items :=
    menuItems_roundTrip m.items
  simp [RadialMenu.toJson, RadialMenu.fromJson, radialMenuFields,
    radialMenuStep_name, radialMenuStep_command, radialMenuStep_items, h]

theorem fsWrite_lookup (st : MenuFs) (path : String) (data : FileData) (st' : MenuFs)
    (h : fsWrite st path data = .ok st') : st'.files.lookup path = some data := by
  unfold fsWrite at h
  split at h
  · split at h
    · split at h
      · simp at h
      · injection h with h1
        subst h1
        simp [List.lookup]
    · simp at h
  · split at h
    · simp at h
    · injection h with h1
      subst h1
      simp [List.lookup]

/-- C1: for every menu document, state and path at which the write succeeds,
`save_radial_menu` followed by `load_radial_menu` at the same path returns a
document structurally equal to the saved one. -/
theorem claim1_save_then_load_roundtrip (st : MenuFs) (menu : RadialMenu) (path : String)
    (st' : MenuFs) (h : save_radial_menu st menu path = .ok st') :
    load_radial_menu st' path = .ok menu := by
  have hl := fsWrite_lookup st path (.jsonData menu.toJson) st' h
  unfold load_radial_menu
  rw [hl]
  simp [radialMenu_roundTrip]

/-- C1 witness: a concrete save followed by a load returns the menu. -/
theorem claim1_roundtrip_witness :
    save_radial_menu stMenu0 menuW "menus/add.radial.json" = .ok stMenu1
    ∧ load_radial_menu stMenu1 "menus/add.radial.json" = .ok menuW :=
  ⟨by rfl, claim1_save_then_load_roundtrip stMenu0 menuW "menus/add.radial.json" stMenu1 (by rfl)⟩

/-- C3 counterexample: with no existing directory, saving to `menus/add.radial.json`
fails although serialization succeeds and the parent is creatable — the code
does not create parent directories. -/
theorem claim3_counterexample :
    save_radial_menu stNoDir menuW "menus/add.radial.json" =
      .error "Failed to write file: No such file or directory" := by rfl

/-- C3 amended: `save_radial_menu` does not create missing parent directories:
it fails when the parent of the path is absent, never changes the set of
directories, and succeeds when the parent exists (or the path is a bare file
name) and the OS does not deny the write. -/
theorem claim3_amended_no_parent_creation (st : MenuFs) (menu : RadialMenu) (path : String) :
    (∀ d, parentDir path = some d → d ∉ st.dirs →
      save_radial_menu st menu path = .error "Failed to write file: No such file or directory")
    ∧ (∀ st', save_radial_menu st menu path = .ok st' → st'.dirs = st.dirs)
    ∧ ((∀ d, parentDir path = some d → d ∈ st.dirs) → path ∉ st.writeDenied →
      ∃ st', save_radial_menu st menu path = .ok st') := by
  refine ⟨?_, ?_, ?_⟩
  · intro d hd hmem
    unfold save_radial_menu fsWrite
    rw [hd]
    simp [hmem]
  · intro st' h
    unfold save_radial_menu fsWrite at h
    split at h
    · split at h
      · split at h
        · simp at h
        · injection h with h1
          subst h1
          rfl
      · simp at h
    · split at h
      · simp at h
      · injection h with h1
        subst h1
        rfl
  · intro hpar hw
    unfold save_radial_menu fsWrite
    cases hd : parentDir path with
    | some d => simp [hpar d hd, hw]
    | none => simp [hw]

/-- C3 amended witness: the save succeeds concretely when the parent exists. -/
theorem claim3_amended_witness :
    ∃ st', save_radial_menu stMenu0 menuW "menus/add.radial.json" = .ok st' :=
  (claim3_amended_no_parent_creation stMenu0 menuW "menus/add.radial.json").2.2
    (fun d hd => by
      have h2 : parentDir "menus/add.radial.json" = some "menus" := by rfl
      rw [h2] at hd
      injection hd with h3
      subst h3
      decide)
    (by decide)

/-- C2 counterexample: saving the directory preference `/nope` (a path that
does not exist) and reading it back returns `None`, not the last-saved
trimmed string, refuting unconditional last-write-wins readback. -/
theorem claim2_counterexample :
    save_radials_directory wPref "/nope" = .ok wPrefNope
    ∧ get_saved_radials_directory wPrefNope = .ok none
    ∧ rustTrim "/nope" = "/nope"
    ∧ (Except.ok none : Except String (Option String)) ≠ .ok (some "/nope") := by
  refine ⟨by rfl, by rfl, by rfl, by simp⟩

/-- C2 amended: `get_saved_radials_directory` returns `None` when the marker
file is missing (so before any save), and after a successful
`save_radials_directory` of `p` it returns the trimmed last-saved string when
that trimmed path exists on the file system, and `None` when it does not. -/
theorem claim2_amended_get_after_save (w : PrefWorld) (p : String) :
    (∀ cfg, w.configDir = .ok cfg → w.files.lookup (markerFile cfg) = none →
      get_saved_radials_directory w = .ok none)
    ∧ (∀ cfg w', w.configDir = .ok cfg → markerFile cfg ∉ w.unreadable →
        save_radials_directory w p = .ok w' →
        get_saved_radials_directory w' =
          .ok (if rustTrim p ∈ w.existingPaths then some (rustTrim p) else none)) := by
  constructor
  · intro cfg hcfg hnone
    simp [get_saved_radials_directory, hcfg, hnone]
  · intro cfg w' hcfg hread hsave
    unfold save_radials_directory at hsave
    rw [hcfg] at hsave
    dsimp only at hsave
    split at hsave
    · simp at hsave
    · split at hsave
      · simp at hsave
      · injection hsave with h1
        subst h1
        simp [get_saved_radials_directory, hcfg, List.lookup, hread]
        split <;> rfl

/-- C2 amended witness: saving `" /data "` with `/data` existing yields
`Some "/data"` on readback. -/
theorem claim2_amended_witness :
    get_saved_radials_directory wPrefData = .ok (some "/data") := by
  have h := (claim2_amended_get_after_save wPref " /data ").2 "/cfg" wPrefData
    (by rfl) (by decide) (by rfl)
  rw [h]
  rfl

/-- C9: `get_saved_radials_directory` returns `Some p` only when `p` is the
trimmed stored string and that path exists at the time of the call; when the
marker file holds a path whose trimmed form does not exist, the result is
`None` — not the stored string and not an error. -/
theorem claim9_existence_gate (w : PrefWorld) :
    (∀ p, get_saved_radials_directory w = .ok (some p) →
      p ∈ w.existingPaths ∧ ∃ cfg content, w.configDir = .ok cfg ∧
        w.files.lookup (markerFile cfg) = some content ∧ p = rustTrim content)
    ∧ (∀ cfg content, w.configDir = .ok cfg →
        w.files.lookup (markerFile cfg) = some content →
        markerFile cfg ∉ w.unreadable →
        rustTrim content ∉ w.existingPaths →
        get_saved_radials_directory w = .ok none) := by
  constructor
  · intro p h
    unfold get_saved_radials_directory at h
    cases hcfg : w.configDir with
    | error e => rw [hcfg] at h; simp at h
    | ok cfg =>
      rw [hcfg] at h
      dsimp only at h
      cases hlk : w.files.lookup (markerFile cfg) with
      | none => rw [hlk] at h; simp at h
      | some content =>
        rw [hlk] at h
        dsimp only at h
        split at h
        · simp at h
        · split at h
          · injection h with h1
            injection h1 with h2
            subst h2
            exact ⟨by assumption, cfg, content, rfl, hlk, rfl⟩
          · simp at h
  · intro cfg content hcfg hlk hread hnex
    simp [get_saved_radials_directory, hcfg, hlk, hread, hnex]

/-- C9 witness: a stored path that no longer exists reads back as `None`. -/
theorem claim9_witness : get_saved_radials_directory wPrefGone = .ok none :=
  (claim9_existence_gate wPrefGone).2 "/cfg" "/gone" (by rfl) (by rfl)
    (by decide) (by decide)

/-- C4 counterexample: a directory whose listing contains a failing entry
still yields `Ok` with the readable entries — a partial result, not an error. -/
theorem claim4_counterexample :
    list_json_files stC4 = .ok ["a.json"]
    ∧ ∀ e, list_json_files stC4 ≠ .error e := by
  refine ⟨by rfl, ?_⟩
  intro e h
  rw [show list_json_files stC4 = .ok ["a.json"] from by rfl] at h
  simp at h

/-- C4 amended: a failure to read an individual entry is silently skipped —
the listing of a directory with a failing entry equals the listing without it
and is an `Ok`; only a missing directory or a failure to open the directory
itself aborts with an error. -/
theorem claim4_amended_entry_errors_skipped (pre post : List (Except String DirEntry))
    (msg : String) :
    list_json_files ⟨true, .ok (pre ++ .error msg :: post)⟩ =
      list_json_files ⟨true, .ok (pre ++ post)⟩
    ∧ (∃ l, list_json_files ⟨true, .ok (pre ++ .error msg :: post)⟩ = .ok l)
    ∧ (∀ e, list_json_files ⟨true, (.error e : Except String (List (Except String DirEntry)))⟩ =
        .error ("Failed to read directory: " ++ e))
    ∧ (∀ rd, list_json_files ⟨false, rd⟩ = .error "Directory does not exist") := by
  refine ⟨?_, ⟨_, rfl⟩, fun e => rfl, fun rd => rfl⟩
  simp [list_json_files, List.filterMap_append]

/-- C5 counterexample: a subdirectory named `sub.json` is returned by the
listing — subdirectories are not skipped when their name has the `json`
extension. -/
theorem claim5_counterexample :
    list_json_files stC5sub = .ok ["sub.json"]
    ∧ stC5sub.readDir = .ok [.ok ⟨asciiBytes "sub.json", true⟩]
    ∧ (Except.ok ["sub.json"] : Except String (List String)) ≠ .ok [] :=
  ⟨by rfl, rfl, by simp⟩

/-- C5 amended: for every existing, openable directory the result is `Ok` of a
lexicographically sorted permutation of the names of exactly those entries —
of any kind, subdirectories included — whose extension is exactly `json`
(case-sensitive) and whose name is valid UTF-8; on
`{a.json, b.txt, c.JSON, sub/}` the result is exactly `["a.json"]`; a
non-existent path is a directory-not-found error. -/
theorem claim5_amended_listing :
    (∀ st es, st.present = true → st.readDir = .ok es →
      ∃ l, list_json_files st = .ok l ∧ List.Sorted (· ≤ ·) l ∧
        l.Perm (es.filterMap (fun ent =>
          match ent with
          | .ok e => entryJsonName e
          | .error _ => none)))
    ∧ list_json_files stC5 = .ok ["a.json"]
    ∧ (∀ st, st.present = false → list_json_files st = .error "Directory does not exist") := by
  refine ⟨?_, by rfl, ?_⟩
  · intro st es hp hrd
    have hval : list_json_files st = .ok (List.insertionSort (· ≤ ·) (es.filterMap (fun ent =>
        match ent with
        | .ok e => entryJsonName e
        | .error _ => none))) := by
      simp [list_json_files, hp, hrd]
    exact ⟨_, hval, List.sorted_insertionSort _ _, List.perm_insertionSort _ _⟩
  · intro st hp
    simp [list_json_files, hp]

/-- C5 amended witness: the general characterization applied to the concrete
directory `{a.json, b.txt, c.JSON, sub/}`. -/
theorem claim5_amended_witness :
    ∃ l, list_json_files stC5 = .ok l ∧ List.Sorted (· ≤ ·) l ∧
      l.Perm (entriesC5.filterMap (fun ent =>
        match ent with
        | .ok e => entryJsonName e
        | .error _ => none)) :=
  claim5_amended_listing.1 stC5 entriesC5 rfl rfl

/-- C10: an entry whose name bytes are not valid UTF-8 is silently omitted
from the listing — even when its extension is exactly `json` — and the
listing still succeeds. -/
theorem claim10_non_utf8_skipped (pre post : List (Except String DirEntry)) (e : DirEntry)
    (hext : extensionBytes e.name = some [106, 115, 111, 110])
    (hbad : utf8Decode e.name = none) :
    list_json_files ⟨true, .ok (pre ++ .ok e :: post)⟩ =
      list_json_files ⟨true, .ok (pre ++ post)⟩
    ∧ (∃ l, list_json_files ⟨true, .ok (pre ++ .ok e :: post)⟩ = .ok l) := by
  have hskip : entryJsonName e = none := by
    unfold entryJsonName
    rw [hext]
    simp [utf8Str, hbad]
  refine ⟨?_, ⟨_, rfl⟩⟩
  simp [list_json_files, List.filterMap_append, hskip]

/-- C10 witness: a non-UTF-8 name with `json` extension contributes nothing. -/
theorem claim10_witness :
    list_json_files ⟨true, .ok [.ok aEntry, .ok badEntry]⟩ =
      list_json_files ⟨true, .ok [.ok aEntry]⟩ :=
  (claim10_non_utf8_skipped [.ok aEntry] [] badEntry (by decide) (by decide)).1

/-- C6: `load_commands_from_file` fails with the read error exactly when the
path is unreadable; on a readable file it either returns the parsed catalog or
fails with the parse error — never the read (file-not-found) error. -/
theorem claim6_two_failure_modes (w : CmdWorld) (path : String) :
    (readToString w path = none →
      load_commands_from_file w path = .error "Failed to read file: os error")
    ∧ (∀ content, readToString w path = some content →
        (∃ m, parseStringMap content = some m ∧ load_commands_from_file w path = .ok m)
        ∨ (parseStringMap content = none ∧
            load_commands_from_file w path =
              .error "Failed to parse commands file: invalid JSON")) := by
  constructor
  · intro h
    simp [load_commands_from_file, h]
  · intro content h
    cases hp : parseStringMap content with
    | some m =>
      left
      exact ⟨m, rfl, by simp [load_commands_from_file, h, hp]⟩
    | none =>
      right
      exact ⟨rfl, by simp [load_commands_from_file, h, hp]⟩

/-- C6 witness: a readable file with invalid JSON fails with the parse error,
and an unreadable path with the read error. -/
theorem claim6_witness :
    load_commands_from_file wCmd6 "missing.json" = .error "Failed to read file: os error" :=
  (claim6_two_failure_modes wCmd6 "missing.json").1 (by rfl)



theorem tryPaths_none (w : CmdWorld) (ps : List String)
    (h : ps.all (fun p => ((readToString w p).bind parseStringMap).isNone) = true) :
    tryPaths w ps = none := by
  induction ps with
  | nil => rfl
  | cons p ps ih =>
    simp only [List.all_cons, Bool.and_eq_true] at h
    obtain ⟨h1, h2⟩ := h
    unfold tryPaths
    cases hr : readToString w p with
    | none => exact ih h2
    | some content =>
      rw [hr] at h1
      simp at h1
      simp only [h1]
      exact ih h2

/-- C7: when no candidate location holds a readable, parseable
`commands.json`, `load_commands` returns the compiled-in fallback catalog;
and under every file-system state `load_commands` returns `Ok`, never an
error. -/
theorem claim7_fallback_and_total_success (w : CmdWorld) :
    (noCandidateUsable w = true → load_commands w = .ok fallbackCommands)
    ∧ (∃ m, load_commands w = .ok m) := by
  constructor
  · intro h
    unfold load_commands
    rw [tryPaths_none w possiblePaths h]
  · unfold load_commands
    cases tryPaths w possiblePaths with
    | none => exact ⟨fallbackCommands, rfl⟩
    | some m => exact ⟨m, rfl⟩

/-- C7 witness: on an empty file system the fallback catalog is returned. -/
theorem claim7_witness : load_commands wCmdEmpty = .ok fallbackCommands :=
  (claim7_fallback_and_total_success wCmdEmpty).1 (by rfl)

theorem tryPaths_eq_head (w : CmdWorld) (ps : List String) :
    tryPaths w ps =
      (ps.filterMap (fun p => (readToString w p).bind parseStringMap)).head? := by
  induction ps with
  | nil => rfl
  | cons p ps ih =>
    unfold tryPaths
    cases hr : readToString w p with
    | none => simp [List.filterMap_cons, hr, ih]
    | some content =>
      cases hp : parseStringMap content with
      | none => simp [List.filterMap_cons, hr, hp, ih]
      | some m => simp [List.filterMap_cons, hr, hp]

/-- C8 counterexample: with a parseable `commands.json` both in the user's
application-data directory and at `dist/commands.json`, the code returns the
`dist/commands.json` catalog while the spec's resolution order returns the
application-data one. -/
theorem claim8_counterexample :
    load_commands wCmd8 = .ok [("k", "v2")]
    ∧ specLoadCommands wCmd8 = .ok [("k", "v1")]
    ∧ ([("k", "v2")] : List (String × String)) ≠ [("k", "v1")] :=
  ⟨by rfl, by rfl, by decide⟩

/-- C8 amended: `load_commands` tries, in order, exactly the fixed
working-directory-relative candidates `dist/commands.json`,
`./dist/commands.json`, `../dist/commands.json`, `commands.json`; the first
that both reads and parses wins, read or parse failures fall through, and
when none is usable the compiled-in fallback is returned. -/
theorem claim8_amended_resolution (w : CmdWorld) :
    load_commands w = .ok ((firstParsedCandidate w).getD fallbackCommands) := by
  unfold load_commands firstParsedCandidate
  rw [tryPaths_eq_head]
  cases (possiblePaths.filterMap (fun p => (readToString w p).bind parseStringMap)).head? with
  | none => rfl
  | some m => rfl
